import Mathlib

/-!
Shallow embedding of the rfc2136 libdns provider (provider.go of
francislavoie/rfc2136) together with the library helpers it calls
(net.SplitHostPort, net.JoinHostPort, dns.Fqdn, the miekg/dns update-message
builders and rcode table).  Machine integers are modelled as Nat/Int with
explicit reduction modulo 2^32 where the Go code converts to uint32.  The
network exchange performed by dns.Client.Exchange / dns.Exchange is an oracle
parameter: each call site receives the call index, the client, the message and
the nameserver address and produces the (reply, error) pair that Go would
receive from the network.
-/

namespace Rfc2136

/-! ### Character-list utilities (Go strings / bytes helpers)

Go strings are byte strings; every string the provider manipulates is ASCII,
so `List Char` is a faithful carrier. -/

/-- Does `p` occur as a prefix of `l`?  (Go internal of strings.HasPrefix.) -/
def hasPrefixC : List Char → List Char → Bool
  | [], _ => true
  | _ :: _, [] => false
  | p :: ps, c :: cs => p == c && hasPrefixC ps cs

/-- Does `pat` occur as a contiguous substring of `l`?  (Go strings.Contains.) -/
def containsC (pat : List Char) : List Char → Bool
  | [] => hasPrefixC pat []
  | c :: cs => hasPrefixC pat (c :: cs) || containsC pat cs

/-- Go `strings.Contains(s, substr)`. -/
def stringsContains (s substr : String) : Bool :=
  containsC substr.data s.data

/-- Index of the first occurrence of `c` (Go bytealg.IndexByteString). -/
def indexOfC (c : Char) : List Char → Option Nat
  | [] => none
  | x :: xs => if x == c then some 0 else (indexOfC c xs).map (· + 1)

/-- Index of the last occurrence of `c` (Go net's `last(s, b)`). -/
def lastIndexOf (c : Char) : List Char → Option Nat
  | [] => none
  | x :: xs =>
    match lastIndexOf c xs with
    | some i => some (i + 1)
    | none => if x == c then some 0 else none

/-! ### net.SplitHostPort / net.JoinHostPort -/

/-- Go `net.AddrError`: `err` is the reason string (Go field `Err`),
`addr` the offending address. -/
structure AddrError where
  err : String
  addr : String
  deriving DecidableEq

/-- Go `(*net.AddrError).Error()`: `"address " + Addr + ": " + Err`,
or just `Err` when `Addr` is empty. -/
def addrErrorMessage (e : AddrError) : String :=
  if e.addr = "" then e.err else "address " ++ e.addr ++ ": " ++ e.err

/-- Embedding of Go `net.SplitHostPort` (src/net/ipsock.go).  Splits
`host:port` / `[host]:port`; errors carry the exact Go reason strings. -/
def splitHostPort (hostport : String) : Except AddrError (String × String) :=
  let l := hostport.data
  match lastIndexOf ':' l with
  | none => .error ⟨"missing port in address", hostport⟩
  | some i =>
    if l.head? = some '[' then
      match indexOfC ']' l with
      | none => .error ⟨"missing ']' in address", hostport⟩
      | some e =>
        if e + 1 = l.length then .error ⟨"missing port in address", hostport⟩
        else if e + 1 = i then
          -- host is hostport[1:e]; the remaining checks scan hostport[1:]
          -- for a stray '[' and hostport[e+1:] for a stray ']'
          if (indexOfC '[' (l.drop 1)).isSome then
            .error ⟨"missing '[' in address", hostport⟩
          else if (indexOfC ']' (l.drop (e + 1))).isSome then
            .error ⟨"missing ']' in address", hostport⟩
          else .ok (⟨(l.drop 1).take (e - 1)⟩, ⟨l.drop (i + 1)⟩)
        else if l[e + 1]? = some ':' then
          .error ⟨"too many colons in address", hostport⟩
        else .error ⟨"missing port in address", hostport⟩
    else
      let host := l.take i
      if (indexOfC ':' host).isSome then
        .error ⟨"too many colons in address", hostport⟩
      else if (indexOfC '[' l).isSome then
        .error ⟨"missing '[' in address", hostport⟩
      else if (indexOfC ']' l).isSome then
        .error ⟨"missing ']' in address", hostport⟩
      else .ok (⟨host⟩, ⟨l.drop (i + 1)⟩)

/-- Embedding of Go `net.JoinHostPort`: a host containing a colon is assumed
to be an IPv6 literal and gets wrapped in square brackets. -/
def joinHostPort (host port : String) : String :=
  if (indexOfC ':' host.data).isSome then "[" ++ host ++ "]:" ++ port
  else host ++ ":" ++ port

/-! ### libdns record and provider configuration -/

/-- Embedding of `libdns.Record`.  Field `rtype` is the Go field `Type` (a Lean keyword);
`ttl` is the Go `TTL time.Duration`, an int64. -/
structure Record where
  name : String
  rtype : String
  value : String
  ttl : Int
  deriving DecidableEq

def defaultRecord : Record := ⟨"", "", "", 0⟩

/-- The `Provider` struct.  The `sync.Mutex` field only serializes calls and
carries no data, so it is not modelled. -/
structure Provider where
  nameserver : String
  tsigAlgorithm : String
  tsigKeyName : String
  tsigSecret : String
  deriving DecidableEq

/-- Embedding of the method `normalizedNameserver` (provider.go):
append the default DNS port if none is specified. -/
def normalizedNameserver (p : Provider) : String :=
  match splitHostPort p.nameserver with
  | .error e =>
    if stringsContains (addrErrorMessage e) "missing port" then
      joinHostPort p.nameserver "53"
    else p.nameserver
  | .ok _ => p.nameserver

/-! ### miekg/dns constants and helpers used by the provider -/

def classINET : Nat := 1
def typeA : Nat := 1
def typeCNAME : Nat := 5
def typeSOA : Nat := 6
def typeMX : Nat := 15
def typeTXT : Nat := 16
def typeAAAA : Nat := 28
def typeANY : Nat := 255
def opcodeQuery : Nat := 0
def opcodeUpdate : Nat := 5

/-- The part of the generated map `dns.StringToType` reachable from the
provider: the five mnemonics `rrFromRecord` dispatches on.  A Go map lookup
miss yields the zero value, hence the default 0. -/
def stringToType (s : String) : Nat :=
  if s = "A" then typeA
  else if s = "AAAA" then typeAAAA
  else if s = "CNAME" then typeCNAME
  else if s = "MX" then typeMX
  else if s = "TXT" then typeTXT
  else 0

/-- Embedding of `dns.Type.String()`: mnemonic for a type code, `"TYPE" ++ digits` for
codes outside the generated table (subset sufficient for answers of the
record types this provider handles). -/
def typeToString (t : Nat) : String :=
  if t = typeA then "A"
  else if t = typeCNAME then "CNAME"
  else if t = typeSOA then "SOA"
  else if t = typeMX then "MX"
  else if t = typeTXT then "TXT"
  else if t = typeAAAA then "AAAA"
  else if t = 2 then "NS"
  else if t = typeANY then "ANY"
  else "TYPE" ++ Nat.repr t

/-- Embedding of `dns.RcodeToString` (map literal in msg.go), entries 0–10; a Go map
lookup miss yields the empty string. -/
def rcodeToString (rcode : Nat) : String :=
  if rcode = 0 then "NOERROR"
  else if rcode = 1 then "FORMERR"
  else if rcode = 2 then "SERVFAIL"
  else if rcode = 3 then "NXDOMAIN"
  else if rcode = 4 then "NOTIMP"
  else if rcode = 5 then "REFUSED"
  else if rcode = 6 then "YXDOMAIN"
  else if rcode = 7 then "YXRRSET"
  else if rcode = 8 then "NXRRSET"
  else if rcode = 9 then "NOTAUTH"
  else if rcode = 10 then "NOTZONE"
  else ""

/-- Number of backslashes at the end of the list. -/
def trailingBackslashes (l : List Char) : Nat :=
  (l.reverse.takeWhile (· == '\\')).length

/-- Embedding of `dns.IsFqdn`: ends in an unescaped dot (an odd-length backslash run
before the final dot means the dot itself is escaped). -/
def isFqdn (s : String) : Bool :=
  match s.data.getLast? with
  | some '.' => trailingBackslashes (s.data.dropLast) % 2 = 0
  | _ => false

/-- Embedding of `dns.Fqdn`: append a trailing dot unless the name is already fully
qualified. -/
def fqdn (s : String) : String :=
  if isFqdn s then s else s ++ "."

/-! ### Wire model

What the provider passes to / receives from miekg/dns.  A Go `dns.RR`
interface value may be nil, so RR positions in the provider's flow carry
`Option WireRR`. -/

/-- Embedding of `dns.RR_Header`.  `cls` is the Go field `Class`. -/
structure RR_Header where
  name : String
  rrtype : Nat
  cls : Nat
  ttl : Nat
  deriving DecidableEq

/-- The type-specific payload of the record types `rrFromRecord` builds.
For A/AAAA the Go code stores `net.IP(record.Value)`, a raw byte cast of the
value string (NOT a parse of the textual address); the string here stands for
exactly those bytes. -/
inductive RData where
  | a (bytes : String)
  | aaaa (bytes : String)
  | cname (target : String)
  | mx (mx : String)
  | txt (chunks : List String)
  deriving DecidableEq

structure WireRR where
  hdr : RR_Header
  rdata : RData
  deriving DecidableEq

/-- Embedding of `dns.Question`. -/
structure Question where
  name : String
  qtype : Nat
  qclass : Nat
  deriving DecidableEq

/-- The TSIG record appended by `dns.Msg.SetTsig`: owner name (the key
name), algorithm, fudge and the timestamp passed at the call. -/
structure TsigRR where
  name : String
  algorithm : String
  fudge : Nat
  timeSigned : Int
  deriving DecidableEq

/-- One entry of the update (authority) section, recording which miekg/dns
builder put it there and the (possibly nil) RR the provider passed in.  The
library turns `remove` / `removeRRset` entries into ClassNONE / ClassANY
directives derived from the given RR's header; dereferencing that header is
the library's business (and panics on a nil interface), so the entry keeps
the RR as given. -/
inductive NsEntry where
  | insert (rr : Option WireRR)
  | remove (rr : Option WireRR)
  | removeRRset (rr : Option WireRR)
  deriving DecidableEq

/-- Embedding of `dns.Msg`, restricted to the fields the provider reads or writes.  The
random 16-bit message id (`dns.Id()`) carries no information relevant to the
claims and is not modelled. -/
structure Msg where
  opcode : Nat
  recursionDesired : Bool
  question : List Question
  ns : List NsEntry
  extra : List TsigRR
  deriving DecidableEq

/-- Embedding of `msg.SetUpdate(zone)`: opcode UPDATE, zone SOA question. -/
def setUpdate (zone : String) : Msg :=
  ⟨opcodeUpdate, false, [⟨zone, typeSOA, classINET⟩], [], []⟩

/-- Embedding of `msg.Insert(rrs)` (update.go): appends the given RRs to the
authority section.  The library sets `r.Header().Class` on each RR, which on
a nil interface is a nil-pointer panic; this constructor records the RR as
given, and the panic is kept by the panic-aware run semantics
(`updateLoopP`) below. -/
def msgInsert (m : Msg) (rrs : List (Option WireRR)) : Msg :=
  ⟨m.opcode, m.recursionDesired, m.question, m.ns ++ rrs.map .insert, m.extra⟩

/-- Embedding of `msg.Remove(rrs)` (update.go): delete-by-value directives.
The library reads and rewrites `r.Header()` (ClassNONE, TTL 0) on each RR —
a nil-pointer panic on a nil interface, kept by `updateLoopP` below. -/
def msgRemove (m : Msg) (rrs : List (Option WireRR)) : Msg :=
  ⟨m.opcode, m.recursionDesired, m.question, m.ns ++ rrs.map .remove, m.extra⟩

/-- Embedding of `msg.RemoveRRset(rrs)` (update.go): whole-RRset deletion
directives.  The library builds the ClassANY directive from `r.Header()` —
a nil-pointer panic on a nil interface, kept by `updateLoopP` below. -/
def msgRemoveRRset (m : Msg) (rrs : List (Option WireRR)) : Msg :=
  ⟨m.opcode, m.recursionDesired, m.question, m.ns ++ rrs.map .removeRRset, m.extra⟩

/-- Embedding of `dns.Client` as configured by `makeClient`: the `TsigSecret` map has at
most the one entry the provider stores. -/
structure Client where
  singleInflight : Bool
  tsigSecret : Option (String × String)
  deriving DecidableEq

/-- Embedding of the method `makeClient` (provider.go). -/
def makeClient (p : Provider) : Client :=
  if p.tsigKeyName.length > 0 ∧ p.tsigSecret.length > 0 then
    ⟨true, some (fqdn p.tsigKeyName, p.tsigSecret)⟩
  else ⟨true, none⟩

/-- Embedding of the method `configureMessage` (provider.go): when both the
TSIG key name and secret are non-empty, `msg.SetTsig(dns.Fqdn(keyname),
dns.Fqdn(algorithm), 300, time.Now().Unix())` appends a TSIG record; `now`
is the send-time timestamp. -/
def configureMessage (p : Provider) (now : Int) (msg : Msg) : Msg :=
  if p.tsigKeyName.length > 0 ∧ p.tsigSecret.length > 0 then
    ⟨msg.opcode, msg.recursionDesired, msg.question, msg.ns,
      msg.extra ++ [⟨fqdn p.tsigKeyName, fqdn p.tsigAlgorithm, 300, now⟩]⟩
  else msg

/-- Go `uint32(x)` on an int64: the low 32 bits. -/
def uint32ofInt (x : Int) : Nat :=
  (x % 4294967296).toNat

/-- Embedding of `rrFromRecord` (provider.go).  The Go source declares
`var rr dns.RR` (a nil interface value) and then, in every case of the
switch, writes `rr := new(dns.A)` — the `:=` declares a NEW variable that
shadows the outer `rr`, so the populated record is a dead store and the
final `return rr, nil` returns the outer, still-nil `rr`.  The shadowed
constructions are kept below, bound to the unused `_rrA`, `_rrAAAA`, …,
exactly as the source builds them. -/
def rrFromRecord (zone : String) (record : Record) : Option WireRR × Option String :=
  let header : RR_Header :=
    ⟨zone, stringToType record.rtype, classINET, uint32ofInt record.ttl⟩
  let rr : Option WireRR := none
  if record.rtype = "A" then
    let _rrA : WireRR := ⟨header, .a record.value⟩
    (rr, none)
  else if record.rtype = "AAAA" then
    let _rrAAAA : WireRR := ⟨header, .aaaa record.value⟩
    (rr, none)
  else if record.rtype = "CNAME" then
    let _rrCNAME : WireRR := ⟨header, .cname record.value⟩
    (rr, none)
  else if record.rtype = "MX" then
    let _rrMX : WireRR := ⟨header, .mx record.value⟩
    (rr, none)
  else if record.rtype = "TXT" then
    let _rrTXT : WireRR := ⟨header, .txt [record.value]⟩
    (rr, none)
  else
    (none, some ("unsupported type " ++ record.rtype))

/-! ### The network boundary and the four public operations -/

/-- One answer record of a query reply.  `str` stands for the library's
presentation rendering `record.String()`, which `GetRecords` copies into the
abstract record's `Value`; the oracle supplies it with the answer. -/
structure AnswerRR where
  hdr : RR_Header
  str : String
  deriving DecidableEq

/-- A DNS reply as the provider reads it: response code and answer section. -/
structure Reply where
  rcode : Nat
  answer : List AnswerRR
  deriving DecidableEq

/-- Oracle for `c.Exchange(msg, nameserver)` inside the update loops: given
the index of the exchange within the call, the client, the message and the
nameserver address, produce the `(reply, err)` pair Go receives.  Either
component may be absent, exactly as the Go code allows. -/
def Exch : Type := Nat → Client → Msg → String → Option Reply × Option String

/-- Oracle for the package-level `dns.Exchange(msg, nameserver)` used by
`GetRecords` (one call per invocation; a nil-reply-nil-error outcome would
crash `GetRecords` at `in.Answer` and is outside the model). -/
def QExch : Type := Msg → String → Except String Reply

/-- Common body of one iteration of the AppendRecords / DeleteRecords /
SetRecords loops.  All three Go loops carry the identical (copy-pasted)
"failed to append record" message prefixes; `build` is the per-operation
transaction builder applied to the translated RR.  The result is the message
exchanged (if the iteration reached the exchange) and the error that aborts
the loop (if any). -/
def updateStep (build : Option WireRR → Msg) (c : Client) (nameserver : String)
    (zone : String) (exch : Exch) (k : Nat) (record : Record) :
    Option Msg × Option String :=
  match rrFromRecord zone record with
  | (_, some e) => (none, some ("failed to append record: " ++ e))
  | (rr, none) =>
    let msg := build rr
    match exch k c msg nameserver with
    | (_, some e) => (some msg, some ("failed to append record, " ++ e))
    | (some reply, none) =>
      if reply.rcode ≠ 0 then
        (some msg,
          some ("failed to append record, server replied " ++ rcodeToString reply.rcode))
      else (some msg, none)
    | (none, none) => (some msg, none)

/-- The single transaction `AppendRecords` builds for one record:
`SetUpdate(zone)`, `Insert(rrs)`, then TSIG configuration. -/
def buildAppendMsg (p : Provider) (zone : String) (now : Int)
    (rr : Option WireRR) : Msg :=
  configureMessage p now (msgInsert (setUpdate zone) [rr])

/-- The single transaction `DeleteRecords` builds for one record:
`SetUpdate(zone)`, `Remove(rrs)`, then TSIG configuration. -/
def buildDeleteMsg (p : Provider) (zone : String) (now : Int)
    (rr : Option WireRR) : Msg :=
  configureMessage p now (msgRemove (setUpdate zone) [rr])

/-- The single transaction `SetRecords` builds for one record:
`SetUpdate(zone)`, `RemoveRRset(rrs)`, `Insert(rrs)`, then TSIG
configuration. -/
def buildSetMsg (p : Provider) (zone : String) (now : Int)
    (rr : Option WireRR) : Msg :=
  configureMessage p now (msgInsert (msgRemoveRRset (setUpdate zone) [rr]) [rr])

/-- One `AppendRecords` loop iteration. -/
def appendStep (p : Provider) (zone : String) (now : Int) (exch : Exch) :
    Nat → Record → Option Msg × Option String :=
  updateStep (buildAppendMsg p zone now) (makeClient p) (normalizedNameserver p)
    zone exch

/-- One `DeleteRecords` loop iteration. -/
def deleteStep (p : Provider) (zone : String) (now : Int) (exch : Exch) :
    Nat → Record → Option Msg × Option String :=
  updateStep (buildDeleteMsg p zone now) (makeClient p) (normalizedNameserver p)
    zone exch

/-- One `SetRecords` loop iteration. -/
def setStep (p : Provider) (zone : String) (now : Int) (exch : Exch) :
    Nat → Record → Option Msg × Option String :=
  updateStep (buildSetMsg p zone now) (makeClient p) (normalizedNameserver p)
    zone exch

/-- The shared `for _, record := range records` loop of the three update
operations: `acc` is the slice of successfully applied records, `k` the
number of exchanges performed so far, `sent` the trace of messages handed to
`Exchange`.  A step error returns the partial result together with the
error. -/
def updateLoop (step : Nat → Record → Option Msg × Option String) :
    List Record → List Record → Nat → List Msg →
    List Record × Option String × List Msg
  | [], acc, _k, sent => (acc, none, sent)
  | record :: rest, acc, k, sent =>
    match step k record with
    | (m, some e) => (acc, some e, sent ++ m.toList)
    | (m, none) => updateLoop step rest (acc ++ [record]) (k + 1) (sent ++ m.toList)

/-- Result of an update operation: the returned record slice, the returned
error, the trace of messages given to `Exchange`, and the provider value
after the call (the Go methods receive `p` by pointer and could mutate it). -/
structure UpdateResult where
  applied : List Record
  err : Option String
  sent : List Msg
  prov : Provider
  deriving DecidableEq

/-- Embedding of the method `AppendRecords` (provider.go). -/
def appendRecords (p : Provider) (zone : String) (records : List Record)
    (now : Int) (exch : Exch) : UpdateResult :=
  let r := updateLoop (appendStep p zone now exch) records [] 0 []
  ⟨r.1, r.2.1, r.2.2, p⟩

/-- Embedding of the method `DeleteRecords` (provider.go). -/
def deleteRecords (p : Provider) (zone : String) (records : List Record)
    (now : Int) (exch : Exch) : UpdateResult :=
  let r := updateLoop (deleteStep p zone now exch) records [] 0 []
  ⟨r.1, r.2.1, r.2.2, p⟩

/-- Embedding of the method `SetRecords` (provider.go). -/
def setRecords (p : Provider) (zone : String) (records : List Record)
    (now : Int) (exch : Exch) : UpdateResult :=
  let r := updateLoop (setStep p zone now exch) records [] 0 []
  ⟨r.1, r.2.1, r.2.2, p⟩

/-- Result of `GetRecords`: the returned slice (`none` is Go's nil slice on
the error path), the error, the single query message sent, and the provider
after the call. -/
structure GetResult where
  records : Option (List Record)
  err : Option String
  sent : List Msg
  prov : Provider
  deriving DecidableEq

/-- Embedding of the method `GetRecords` (provider.go): one ANY query for
the zone; each answer is mapped back to an abstract record (name and TTL
from the header, mnemonic via `dns.Type.String()`, value via the record's
presentation rendering). -/
def getRecords (p : Provider) (zone : String) (qexch : QExch) : GetResult :=
  let msg : Msg := ⟨opcodeQuery, true, [⟨zone, typeANY, classINET⟩], [], []⟩
  match qexch msg (normalizedNameserver p) with
  | .error e => ⟨none, some e, [msg], p⟩
  | .ok inn =>
    ⟨some (inn.answer.map fun a =>
        ⟨a.hdr.name, typeToString a.hdr.rrtype, a.str, (a.hdr.ttl : Int)⟩),
      none, [msg], p⟩

/-! ### Panic-aware run semantics

The constructors `msgInsert` / `msgRemove` / `msgRemoveRRset` record what
the provider passes to the miekg/dns builders; the builders themselves (and
message packing) call `r.Header()` on every RR they are given, which on a
nil interface value is a nil-pointer panic that aborts the whole Go call.
Because the shadowing slip in `rrFromRecord` makes every successfully
translated RR nil, this path matters: the semantics below keeps it instead
of collapsing it. -/

/-- What running one update operation does in the semantics that keeps the
library's nil-RR panic: either the Go function returns a record slice and an
error, or the process panics inside the dns library before the exchange. -/
inductive RunOutcome where
  | ret (applied : List Record) (err : Option String)
  | panics
  deriving DecidableEq

/-- The update loop in the panic-aware semantics.  Each iteration follows
the Go source: translation failure returns the partial result with the
wrapped error; a successfully translated but nil RR panics when the message
builder dereferences its header (so the function never returns); a non-nil
RR — unreachable while the shadowing slip stands — is built, exchanged and
classified exactly as in `updateStep`. -/
def updateLoopP (build : Option WireRR → Msg) (c : Client)
    (nameserver zone : String) (exch : Exch) :
    List Record → List Record → Nat → RunOutcome
  | [], acc, _k => .ret acc none
  | record :: rest, acc, k =>
    match rrFromRecord zone record with
    | (_, some e) => .ret acc (some ("failed to append record: " ++ e))
    | (rr, none) =>
      if rr.isNone then .panics
      else
        let msg := build rr
        match exch k c msg nameserver with
        | (_, some e) => .ret acc (some ("failed to append record, " ++ e))
        | (some reply, none) =>
          if reply.rcode ≠ 0 then
            .ret acc
              (some ("failed to append record, server replied " ++
                rcodeToString reply.rcode))
          else updateLoopP build c nameserver zone exch rest (acc ++ [record]) (k + 1)
        | (none, none) =>
          updateLoopP build c nameserver zone exch rest (acc ++ [record]) (k + 1)

/-- The method `AppendRecords` in the panic-aware semantics. -/
def appendRecordsP (p : Provider) (zone : String) (records : List Record)
    (now : Int) (exch : Exch) : RunOutcome :=
  updateLoopP (buildAppendMsg p zone now) (makeClient p) (normalizedNameserver p)
    zone exch records [] 0

/-- The method `DeleteRecords` in the panic-aware semantics. -/
def deleteRecordsP (p : Provider) (zone : String) (records : List Record)
    (now : Int) (exch : Exch) : RunOutcome :=
  updateLoopP (buildDeleteMsg p zone now) (makeClient p) (normalizedNameserver p)
    zone exch records [] 0

/-- The method `SetRecords` in the panic-aware semantics. -/
def setRecordsP (p : Provider) (zone : String) (records : List Record)
    (now : Int) (exch : Exch) : RunOutcome :=
  updateLoopP (buildSetMsg p zone now) (makeClient p) (normalizedNameserver p)
    zone exch records [] 0

/-! ### Concrete fixtures used by witnesses and counterexamples -/

/-- A provider with no TSIG configuration. -/
def p0 : Provider := ⟨"127.0.0.1:5353", "", "", ""⟩

/-- A provider with full TSIG configuration. -/
def pTsig : Provider := ⟨"ns.example.org", "hmac-sha256", "libdns", "c2VjcmV0"⟩

/-- An exchange oracle whose server always replies NOERROR. -/
def exchOk : Exch := fun _ _ _ _ => (some ⟨0, []⟩, none)

/-- A record of a type the translator does not support. -/
def recSRV : Record := ⟨"test.example.org.", "SRV", "0 0 443 target.example.org.", 300⟩

/-- A TXT record as in the spec's idempotence example. -/
def recTXT : Record := ⟨"test.example.org.", "TXT", "v1", 300⟩

/-- The best-effort contract of one update operation: `applied` is the
longest prefix of `records` whose steps all succeeded, processed in order,
and `err` is `none` when that prefix is the whole list, otherwise exactly
the error of the first failing record's step. -/
def prefixSpec (step : Nat → Record → Option Msg × Option String)
    (records applied : List Record) (err : Option String) : Prop :=
  ∃ n, n ≤ records.length ∧
    applied = records.take n ∧
    (∀ i, i < n → (step i (records.getD i defaultRecord)).2 = none) ∧
    ((n = records.length ∧ err = none) ∨
     (n < records.length ∧ err = (step n (records.getD n defaultRecord)).2 ∧
      (step n (records.getD n defaultRecord)).2 ≠ none))

/-- The supported-mnemonic invariant of the translator's switch. -/
def supportedType (t : String) : Prop :=
  t = "A" ∨ t = "AAAA" ∨ t = "CNAME" ∨ t = "MX" ∨ t = "TXT"

/-! ### Helper lemmas -/

/-- On every supported mnemonic, `rrFromRecord` returns the outer `rr` — a
nil RR — and a nil error: every populated record is shadowed away. -/
theorem rrFromRecord_supported_eq (zone : String) (record : Record)
    (h : supportedType record.rtype) :
    rrFromRecord zone record = (none, none) := by
  rcases h with h | h | h | h | h <;> simp [rrFromRecord, h]

/-- On every mnemonic outside the switch, `rrFromRecord` returns the nil RR
and the formatted unsupported-type error. -/
theorem rrFromRecord_unsupported_eq (zone : String) (record : Record)
    (h : ¬ supportedType record.rtype) :
    rrFromRecord zone record = (none, some ("unsupported type " ++ record.rtype)) := by
  rw [supportedType] at h
  push_neg at h
  obtain ⟨h1, h2, h3, h4, h5⟩ := h
  simp [rrFromRecord, h1, h2, h3, h4, h5]

/-! ### Claim theorems -/

/-- C1: the claimed ToWire/FromWire round trip for A, AAAA, CNAME and TXT
records cannot hold: at the failing input — an A record with value
"127.0.0.1" — `rrFromRecord` returns a nil RR together with a nil error
(the populated `dns.A` is assigned to a variable that shadows the returned
one), so no wire record exists for the answer-to-record mapping of
`GetRecords` to translate back. -/
theorem rrFromRecord_A_produces_no_record :
    rrFromRecord "example.org." ⟨"example.org.", "A", "127.0.0.1", 300⟩ =
      (none, none) := rfl

/-- C2: for every abstract record whose mnemonic is not one of A, AAAA,
CNAME, MX, TXT, the translator returns no wire record and an error naming
that mnemonic ("unsupported type " followed by the mnemonic). -/
theorem rrFromRecord_unsupported_error (zone : String) (record : Record)
    (h : ¬ supportedType record.rtype) :
    (rrFromRecord zone record).1 = none ∧
    (rrFromRecord zone record).2 = some ("unsupported type " ++ record.rtype) := by
  rw [rrFromRecord_unsupported_eq zone record h]
  exact ⟨rfl, rfl⟩

/-- Witness for C2 at the spec's own example mnemonic "SRV". -/
theorem rrFromRecord_unsupported_error_witness :
    (rrFromRecord "example.org." recSRV).1 = none ∧
    (rrFromRecord "example.org." recSRV).2 = some "unsupported type SRV" := by
  have h := rrFromRecord_unsupported_error "example.org." recSRV (by
    rw [supportedType]; decide)
  exact h

/-- C4: the claim that the wire record produced for a supported type carries
a header with the zone as owner name, class INET and the 32-bit TTL fails
because no wire record is produced at all: for every zone and every record
of a supported type the translator returns a nil RR (and a nil error) — the
header with exactly those fields is built, but only into the dead shadowed
variable. -/
theorem rrFromRecord_supported_produces_no_record (zone : String) (record : Record)
    (h : supportedType record.rtype) :
    (rrFromRecord zone record).1 = none ∧ (rrFromRecord zone record).2 = none := by
  rw [rrFromRecord_supported_eq zone record h]
  exact ⟨rfl, rfl⟩

/-- Witness for C4 at a concrete CNAME record. -/
theorem rrFromRecord_supported_produces_no_record_witness :
    (rrFromRecord "example.org." ⟨"www.example.org.", "CNAME", "example.org.", 3600⟩).1
      = none ∧
    (rrFromRecord "example.org." ⟨"www.example.org.", "CNAME", "example.org.", 3600⟩).2
      = none :=
  rrFromRecord_supported_produces_no_record "example.org."
    ⟨"www.example.org.", "CNAME", "example.org.", 3600⟩ (Or.inr (Or.inr (Or.inl rfl)))

/-- The function `fqdn` always produces a name whose last character is a dot. -/
theorem fqdn_getLast_dot (s : String) : (fqdn s).data.getLast? = some '.' := by
  rw [fqdn]
  split
  · rename_i h
    rw [isFqdn] at h
    rcases hl : s.data.getLast? with _ | c
    · rw [hl] at h; simp at h
    · rw [hl] at h
      by_cases hc : c = '.'
      · rw [hc]
      · exfalso
        revert h
        split <;> simp_all
  · show (s ++ ".").data.getLast? = some '.'
    have : (s ++ ".").data = s.data ++ ['.'] := rfl
    rw [this, List.getLast?_concat]

/-- C5: a TSIG record is attached to an outgoing message exactly when both
the key name and the secret are non-empty; the attached record carries the
Fqdn-normalized key name and algorithm name (both therefore ending in a
dot), the fixed fudge 300 and the send-time timestamp, and the client's
secret table holds the secret under the Fqdn-normalized key name.  With
either field empty, `configureMessage` returns the message unchanged and
the client carries no secret. -/
theorem configureMessage_tsig (p : Provider) (now : Int) (msg : Msg) :
    (p.tsigKeyName.length > 0 ∧ p.tsigSecret.length > 0 →
      configureMessage p now msg =
        ⟨msg.opcode, msg.recursionDesired, msg.question, msg.ns,
          msg.extra ++ [⟨fqdn p.tsigKeyName, fqdn p.tsigAlgorithm, 300, now⟩]⟩ ∧
      (fqdn p.tsigKeyName).data.getLast? = some '.' ∧
      (fqdn p.tsigAlgorithm).data.getLast? = some '.' ∧
      makeClient p = ⟨true, some (fqdn p.tsigKeyName, p.tsigSecret)⟩) ∧
    ((p.tsigKeyName = "" ∨ p.tsigSecret = "") →
      configureMessage p now msg = msg ∧ makeClient p = ⟨true, none⟩) := by
  constructor
  · intro h
    refine ⟨?_, fqdn_getLast_dot _, fqdn_getLast_dot _, ?_⟩
    · rw [configureMessage, if_pos h]
    · rw [makeClient, if_pos h]
  · intro h
    have hn : ¬ (p.tsigKeyName.length > 0 ∧ p.tsigSecret.length > 0) := by
      rcases h with h | h <;> rw [h] <;> simp
    rw [configureMessage, if_neg hn, makeClient, if_neg hn]
    exact ⟨rfl, rfl⟩

/-- Witness for C5: with key "libdns", algorithm "hmac-sha256" and a
non-empty secret the update message gains the TSIG record
("libdns.", "hmac-sha256.", fudge 300, timestamp 42); with no TSIG
configuration the message is untouched. -/
theorem configureMessage_tsig_witness :
    configureMessage pTsig 42 (setUpdate "example.org.") =
      ⟨opcodeUpdate, false, [⟨"example.org.", typeSOA, classINET⟩], [],
        [⟨"libdns.", "hmac-sha256.", 300, 42⟩]⟩ ∧
    configureMessage p0 42 (setUpdate "example.org.") = setUpdate "example.org." := by
  constructor
  · exact (((configureMessage_tsig pTsig 42 (setUpdate "example.org.")).1
      (by decide)).1).trans (by decide)
  · exact ((configureMessage_tsig p0 42 (setUpdate "example.org.")).2 (Or.inl rfl)).1

/-- C8: at the failing input — a DeleteRecords (resp. SetRecords) call whose
first record has the unsupported mnemonic "SRV" — the surfaced error reads
"failed to append record: unsupported type SRV": the annotation says
"append", it mentions neither deleting nor setting (the per-operation
wording the claim requires is copy-pasted from AppendRecords in the
source). -/
theorem deleteRecords_error_mentions_append :
    (deleteRecords p0 "example.org." [recSRV] 0 exchOk).err =
      some "failed to append record: unsupported type SRV" ∧
    (setRecords p0 "example.org." [recSRV] 0 exchOk).err =
      some "failed to append record: unsupported type SRV" ∧
    stringsContains "failed to append record: unsupported type SRV" "delet" = false ∧
    stringsContains "failed to append record: unsupported type SRV" "set" = false ∧
    stringsContains "failed to append record: unsupported type SRV" "append" = true :=
  ⟨rfl, rfl, by decide, by decide, by decide⟩

/-- C9: with an empty record list, each of the three update operations
returns an empty record list and no error, sends no message to the
exchange (the trace is empty, for every oracle), and leaves the provider
as it was. -/
theorem updateOps_empty_noop (p : Provider) (zone : String) (now : Int) (exch : Exch) :
    appendRecords p zone [] now exch = ⟨[], none, [], p⟩ ∧
    deleteRecords p zone [] now exch = ⟨[], none, [], p⟩ ∧
    setRecords p zone [] now exch = ⟨[], none, [], p⟩ :=
  ⟨rfl, rfl, rfl⟩

/-- C10: no public operation modifies the provider's configuration: the
provider value after each call equals the value before it.  `Provider`
consists of exactly the four configuration fields Nameserver,
TSIGAlgorithm, TSIGKeyName and TSIGSecret (the mutex carries no data), so
this is preservation of all four. -/
theorem operations_preserve_config (p : Provider) (zone : String) (now : Int)
    (exch : Exch) (qexch : QExch) (records : List Record) :
    (getRecords p zone qexch).prov = p ∧
    (appendRecords p zone records now exch).prov = p ∧
    (deleteRecords p zone records now exch).prov = p ∧
    (setRecords p zone records now exch).prov = p := by
  refine ⟨?_, rfl, rfl, rfl⟩
  rw [getRecords]
  rcases qexch ⟨opcodeQuery, true, [⟨zone, typeANY, classINET⟩], [], []⟩
      (normalizedNameserver p) with e | inn
  · rfl
  · rfl

/-- A substring of `b` is a substring of `a ++ b`. -/
theorem containsC_append_right (pat a b : List Char)
    (h : containsC pat b = true) : containsC pat (a ++ b) = true := by
  induction a with
  | nil => simpa using h
  | cons x xs ih =>
    show containsC pat (x :: (xs ++ b)) = true
    rw [containsC]
    rw [ih]
    simp

/-- If a character occurs nowhere, its last occurrence does not exist. -/
theorem lastIndexOf_eq_none (c : Char) (l : List Char)
    (h : indexOfC c l = none) : lastIndexOf c l = none := by
  induction l with
  | nil => rfl
  | cons x xs ih =>
    rw [indexOfC] at h
    by_cases hx : (x == c) = true
    · rw [if_pos hx] at h; exact absurd h (by simp)
    · rw [if_neg hx] at h
      have hxs : indexOfC c xs = none := by
        rcases he : indexOfC c xs with _ | i
        · rfl
        · rw [he] at h; simp at h
      rw [lastIndexOf, ih hxs, if_neg hx]

/-- An address with no colon splits with the missing-port error. -/
theorem splitHostPort_no_colon (s : String) (h : indexOfC ':' s.data = none) :
    splitHostPort s = .error ⟨"missing port in address", s⟩ := by
  rw [splitHostPort]
  rw [lastIndexOf_eq_none ':' s.data h]

/-- The Go error text of every missing-port `AddrError` contains
"missing port", whatever the address is. -/
theorem addrErrorMessage_contains_missing_port (addr : String) :
    stringsContains (addrErrorMessage ⟨"missing port in address", addr⟩)
      "missing port" = true := by
  by_cases ha : addr = ""
  · subst ha; decide
  · have hmsg : addrErrorMessage ⟨"missing port in address", addr⟩ =
        ("address " ++ addr ++ ": ") ++ "missing port in address" := by
      rw [addrErrorMessage, if_neg ha]
    show containsC "missing port".data
      (addrErrorMessage ⟨"missing port in address", addr⟩).data = true
    rw [hmsg]
    show containsC "missing port".data
      (("address " ++ addr ++ ": ").data ++ "missing port in address".data) = true
    exact containsC_append_right _ _ _ (by decide)

/-- C3 (amended): `normalizedNameserver` returns the address unchanged when
it parses as host:port; when the address contains no colon at all it
returns the address with ":53" appended; when parsing fails without a
missing-port error (any other malformed address) it returns the address
unchanged; and it is a pure function of the Nameserver field.  (When a
portless address does contain a colon — e.g. the bracketed IPv6 literal
"[::1]" — the result is `joinHostPort`'s bracketed form rather than the
plain ":53" suffix; see the counterexample.) -/
theorem normalizedNameserver_spec (p : Provider) :
    ((∃ hp, splitHostPort p.nameserver = .ok hp) →
      normalizedNameserver p = p.nameserver) ∧
    (indexOfC ':' p.nameserver.data = none →
      normalizedNameserver p = p.nameserver ++ ":53") ∧
    (∀ e, splitHostPort p.nameserver = .error e →
      stringsContains (addrErrorMessage e) "missing port" = false →
      normalizedNameserver p = p.nameserver) ∧
    (∀ q : Provider, q.nameserver = p.nameserver →
      normalizedNameserver q = normalizedNameserver p) := by
  refine ⟨?_, ?_, ?_, ?_⟩
  · rintro ⟨hp, h⟩
    rw [normalizedNameserver, h]
  · intro h
    rw [normalizedNameserver, splitHostPort_no_colon p.nameserver h]
    have hc := addrErrorMessage_contains_missing_port p.nameserver
    simp only [hc, if_true]
    rw [joinHostPort]
    rw [h]
    simp only [Option.isSome_none, Bool.false_eq_true, if_false]
    apply String.ext
    show (p.nameserver.data ++ [':']) ++ "53".data = p.nameserver.data ++ ":53".data
    rw [List.append_assoc]
    rfl
  · intro e he hm
    rw [normalizedNameserver, he]
    simp only [hm, Bool.false_eq_true, if_false]
  · intro q hq
    rw [normalizedNameserver, normalizedNameserver, hq]

/-- Witness for C3 at the spec's two examples. -/
theorem normalizedNameserver_spec_witness :
    normalizedNameserver ⟨"ns.example.org:5353", "", "", ""⟩ = "ns.example.org:5353" ∧
    normalizedNameserver ⟨"ns.example.org", "", "", ""⟩ = "ns.example.org:53" := by
  constructor
  · exact (normalizedNameserver_spec _).1 ⟨("ns.example.org", "5353"), rfl⟩
  · exact (normalizedNameserver_spec _).2.1 (by decide)

/-- C3 counterexample: the bracketed IPv6 literal "[::1]" lacks a port, yet
the result is neither the address with ":53" appended nor the address
unchanged — `net.JoinHostPort` wraps the colon-bearing host in a second
pair of brackets. -/
theorem normalizedNameserver_brackets :
    normalizedNameserver ⟨"[::1]", "", "", ""⟩ = "[[::1]]:53" ∧
    "[[::1]]:53" ≠ "[::1]" ++ ":53" ∧
    "[[::1]]:53" ≠ "[::1]" := by
  refine ⟨by decide, by decide, by decide⟩

/-- Main invariant of the shared update loop: some prefix of the records is
applied in order, every record of that prefix passed its step, and the loop
either finished the whole list with no error or stopped at the first record
whose step failed, returning that step's error. -/
theorem updateLoop_go (step : Nat → Record → Option Msg × Option String) :
    ∀ (records : List Record) (acc : List Record) (k : Nat) (sent : List Msg),
      ∃ n, n ≤ records.length ∧
        (updateLoop step records acc k sent).1 = acc ++ records.take n ∧
        (∀ i, i < n → (step (k + i) (records.getD i defaultRecord)).2 = none) ∧
        ((n = records.length ∧ (updateLoop step records acc k sent).2.1 = none) ∨
         (n < records.length ∧
          (updateLoop step records acc k sent).2.1 =
            (step (k + n) (records.getD n defaultRecord)).2 ∧
          (step (k + n) (records.getD n defaultRecord)).2 ≠ none)) := by
  intro records
  induction records with
  | nil =>
    intro acc k sent
    refine ⟨0, Nat.le_refl 0, by simp [updateLoop], ?_,
      Or.inl ⟨rfl, by simp [updateLoop]⟩⟩
    intro i hi
    exact absurd hi (Nat.not_lt_zero i)
  | cons r rest ih =>
    intro acc k sent
    rcases hstep : step k r with ⟨m, e⟩
    cases e with
    | some err =>
      refine ⟨0, Nat.zero_le _, by simp [updateLoop, hstep], ?_,
        Or.inr ⟨by simp, by simp [updateLoop, hstep], by simp [hstep]⟩⟩
      intro i hi
      exact absurd hi (Nat.not_lt_zero i)
    | none =>
      obtain ⟨n, hn, h1, h2, h3⟩ := ih (acc ++ [r]) (k + 1) (sent ++ m.toList)
      have hloop : updateLoop step (r :: rest) acc k sent =
          updateLoop step rest (acc ++ [r]) (k + 1) (sent ++ m.toList) := by
        simp [updateLoop, hstep]
      refine ⟨n + 1, by simp only [List.length_cons]; omega, ?_, ?_, ?_⟩
      · rw [hloop, h1, List.take_succ_cons]
        simp
      · intro i hi
        cases i with
        | zero => simp [hstep]
        | succ j =>
          have hj : j < n := by omega
          have hs := h2 j hj
          have hk : k + (j + 1) = k + 1 + j := by omega
          rw [hk]
          simpa using hs
      · rcases h3 with ⟨hlen, herr⟩ | ⟨hlt, heq, hne⟩
        · left
          refine ⟨by simp [hlen], ?_⟩
          rw [hloop]
          exact herr
        · right
          have hk : k + (n + 1) = k + 1 + n := by omega
          refine ⟨by simp only [List.length_cons]; omega, ?_, ?_⟩
          · rw [hloop, hk]
            simpa using heq
          · rw [hk]
            simpa using hne

/-- The top-level loop satisfies `prefixSpec`. -/
theorem updateLoop_prefixSpec (step : Nat → Record → Option Msg × Option String)
    (records : List Record) :
    prefixSpec step records (updateLoop step records [] 0 []).1
      (updateLoop step records [] 0 []).2.1 := by
  obtain ⟨n, hn, h1, h2, h3⟩ := updateLoop_go step records [] 0 []
  refine ⟨n, hn, by simpa using h1, ?_, ?_⟩
  · intro i hi
    simpa using h2 i hi
  · rcases h3 with ⟨hl, hr⟩ | ⟨hl, he, hne⟩
    · exact Or.inl ⟨hl, hr⟩
    · exact Or.inr ⟨hl, by simpa using he, by simpa using hne⟩

/-- Whenever a record translates without error, the iteration step builds
exactly one message — the operation's transaction for that record — and
hands it to the exchange. -/
theorem updateStep_fst (build : Option WireRR → Msg) (c : Client)
    (nameserver zone : String) (exch : Exch) (k : Nat) (r : Record)
    (h : (rrFromRecord zone r).2 = none) :
    (updateStep build c nameserver zone exch k r).1 =
      some (build (rrFromRecord zone r).1) := by
  rcases hrr : rrFromRecord zone r with ⟨rr, e⟩
  cases e with
  | some ev => rw [hrr] at h; simp at h
  | none =>
    rw [updateStep, hrr]
    rcases hx : exch k c (build rr) nameserver with ⟨reply, err⟩
    cases err with
    | some ev => simp [hx]
    | none =>
      cases reply with
      | none => simp [hx]
      | some rep =>
        simp only [hx]
        split <;> rfl

/-- C6: the claimed best-effort contract — stop at the first translation or
exchange failure and return the already-applied prefix together with the
error — fails on the code for every list whose first record has a supported
type: the record translates to the nil RR left by the shadowing slip, the
dns library's message builders dereference that nil interface's header, and
the process panics before any exchange, so none of the three operations
returns a prefix or an error at all.  (Only lists that fail at translation
first, as in the C8 evaluation, ever see the claimed return path.) -/
theorem updateOps_panic_on_supported (p : Provider) (zone : String) (now : Int)
    (exch : Exch) (record : Record) (rest : List Record)
    (h : supportedType record.rtype) :
    appendRecordsP p zone (record :: rest) now exch = .panics ∧
    deleteRecordsP p zone (record :: rest) now exch = .panics ∧
    setRecordsP p zone (record :: rest) now exch = .panics := by
  have hrr := rrFromRecord_supported_eq zone record h
  refine ⟨?_, ?_, ?_⟩ <;>
    simp [appendRecordsP, deleteRecordsP, setRecordsP, updateLoopP, hrr]

/-- Witness for C6 at the spec's TXT example record: all three operations
panic rather than return. -/
theorem updateOps_panic_on_supported_witness :
    appendRecordsP p0 "example.org." [recTXT] 0 exchOk = .panics ∧
    deleteRecordsP p0 "example.org." [recTXT] 0 exchOk = .panics ∧
    setRecordsP p0 "example.org." [recTXT] 0 exchOk = .panics :=
  updateOps_panic_on_supported p0 "example.org." 0 exchOk recTXT []
    (Or.inr (Or.inr (Or.inr (Or.inr rfl))))

/-- On a record of supported type, `SetRecords` sends exactly one message
whose transaction was built from the nil RR. -/
theorem setRecords_single_sent (p : Provider) (zone : String) (now : Int)
    (exch : Exch) (record : Record) (h : supportedType record.rtype) :
    (setRecords p zone [record] now exch).sent = [buildSetMsg p zone now none] := by
  have hrr := rrFromRecord_supported_eq zone record h
  show (updateLoop (setStep p zone now exch) [record] [] 0 []).2.2 = _
  rcases hstep : setStep p zone now exch 0 record with ⟨m, e⟩
  have hm : m = some (buildSetMsg p zone now none) := by
    have hfst := updateStep_fst (buildSetMsg p zone now) (makeClient p)
      (normalizedNameserver p) zone exch 0 record (by rw [hrr])
    rw [hrr] at hfst
    have : (setStep p zone now exch 0 record).1 = some (buildSetMsg p zone now none) :=
      hfst
    rw [hstep] at this
    exact this
  cases e with
  | some err => simp [updateLoop, hstep, hm]
  | none => simp [updateLoop, hstep, hm]

/-- C7: the transaction SetRecords builds for a supported-type record does
NOT contain an RRset-removal directive naming the record's name and type,
nor an insertion of a populated wire record: both directives are built from
the nil RR left behind by the shadowed translation (in Go, the dns library
dereferences that nil interface when it builds the ClassANY removal header
and when it packs the message).  The single message sent per record has an
update section of exactly those two nil-RR entries. -/
theorem setRecords_transaction_nil (p : Provider) (zone : String) (now : Int)
    (exch : Exch) (record : Record) (h : supportedType record.rtype) :
    (setRecords p zone [record] now exch).sent = [buildSetMsg p zone now none] ∧
    (buildSetMsg p zone now none).ns = [.removeRRset none, .insert none] ∧
    (∀ w : WireRR, NsEntry.removeRRset (some w) ∉ (buildSetMsg p zone now none).ns ∧
      NsEntry.insert (some w) ∉ (buildSetMsg p zone now none).ns) := by
  have hns : (buildSetMsg p zone now none).ns = [.removeRRset none, .insert none] := by
    rw [buildSetMsg, configureMessage]
    split <;> rfl
  refine ⟨setRecords_single_sent p zone now exch record h, hns, ?_⟩
  intro w
  rw [hns]
  constructor <;> simp

/-- Witness for C7 at the spec's own TXT example record. -/
theorem setRecords_transaction_nil_witness :
    (setRecords p0 "example.org." [recTXT] 0 exchOk).sent =
      [buildSetMsg p0 "example.org." 0 none] ∧
    (buildSetMsg p0 "example.org." 0 none).ns = [.removeRRset none, .insert none] ∧
    (∀ w : WireRR,
      NsEntry.removeRRset (some w) ∉ (buildSetMsg p0 "example.org." 0 none).ns ∧
      NsEntry.insert (some w) ∉ (buildSetMsg p0 "example.org." 0 none).ns) :=
  setRecords_transaction_nil p0 "example.org." 0 exchOk recTXT
    (Or.inr (Or.inr (Or.inr (Or.inr rfl))))

end Rfc2136
